import Mathlib

/-!
Shallow embedding of the flex-gpu-scheduler plugin (package `flexgpu`):
`pkg/flexgpu/gpu_node.go` and the plugin file (`Filter` / `Reserve` /
`Unreserve` / `Bind` methods of `FlexGPU`).

Modelling notes, established once and used throughout:

* `resource.Quantity` values are exact decimal/rational numbers; they are
  modelled as `ℚ`.  `Quantity.Add` / `Quantity.Sub` mutate their receiver in
  Go; wherever that matters the embedding threads the mutated value
  explicitly.
* Go panics (`panic(...)`, integer division by zero, out-of-range slice
  indexing, negative `make` length) terminate the process; they are modelled
  as `Except.error msg`.  An `Except.error` therefore stands for a crash, not
  for a recoverable scheduler `framework.Error` status (the latter is the
  `GoStatus.error` constructor below).
* `int64` overflow inside `Quantity` arithmetic and `MinInt64 / -1` overflow
  are not modelled; `AsInt64` does model the `int64` range check.
* In `NewGPUNode`, the single quantity `memEachGPU` is stored (as a pointer)
  in the `memory` field of every constructed `gpu`; the embedding therefore
  keeps one shared field `memEachGPU` in `GPUNode` rather than a per-unit
  capacity, which is exactly the heap shape the source builds.
-/

/-- Constant `GPUResourceName` from the plugin source. -/
def GPUResourceName : String := "nvidia.flex.com/gpu"

/-- Constant `MemResourceName` from the plugin source. -/
def MemResourceName : String := "nvidia.flex.com/memory"

/-- Constant `GPUIndexAnnotationKey` from the plugin source: the pod metadata key that
holds the committed gpu index. -/
def gpuIndexAnnKey : String := "nvidia.flex.com/index"

/-- One container's resource limits, restricted to the two reserved resource
names (no code under scrutiny reads any other key of `Resources.Limits`). -/
structure PodCon where
  gpu : Option ℚ
  mem : Option ℚ
  deriving DecidableEq

/-- A pod: its containers' limits and its `ObjectMeta.Annotations` map,
modelled as an association list with Go-map semantics. -/
structure Pod where
  containers : List PodCon
  anns : List (String × String)
  deriving DecidableEq

/-- A node's `Status.Allocatable` map restricted to the two reserved resource
names; `none` models an absent key. -/
structure NodeAlloc where
  gpuAlloc : Option ℚ
  memAlloc : Option ℚ
  deriving DecidableEq

/-- Go map read `m[k]`. -/
def mapGet (k : String) (m : List (String × String)) : Option String :=
  (m.find? (fun kv => kv.1 == k)).map (fun kv => kv.2)

/-- Go map write `m[k] = v` (replaces the entry when the key is present,
otherwise adds it). -/
def mapSet (k v : String) (m : List (String × String)) : List (String × String) :=
  if (m.find? (fun kv => kv.1 == k)).isSome then
    m.map (fun kv => if kv.1 == k then (k, v) else kv)
  else
    m ++ [(k, v)]

/-- Go map `delete(m, k)`. -/
def mapDel (k : String) (m : List (String × String)) : List (String × String) :=
  m.filter (fun kv => kv.1 != k)

/-- Model of `strconv.Atoi`: optional sign followed by at least one decimal digit,
rejecting anything else and values outside the `int64` range. -/
def atoi (s : String) : Option Int :=
  let signDigits : Int × List Char :=
    match s.data with
    | '+' :: rest => (1, rest)
    | '-' :: rest => (-1, rest)
    | l => (1, l)
  if signDigits.2 = [] ∨ ¬ signDigits.2.all Char.isDigit then none
  else
    let v : Int := signDigits.1 * (signDigits.2.foldl (fun a c => a * 10 + (c.toNat - 48)) 0 : Nat)
    if v < -(2 ^ 63) ∨ 2 ^ 63 ≤ v then none else some v

/-- Model of `resource.Quantity.AsInt64`: succeeds exactly when the quantity is a whole
number representable as an `int64`. -/
def asInt64 (q : ℚ) : Option Int :=
  if q.den = 1 ∧ -(2 ^ 63) ≤ q.num ∧ q.num < 2 ^ 63 then some q.num else none

/-- Function `podResourceLimit` (plugin file): sums a pod's per-container limits for one
resource name and reports whether any container declares it.  `sel` selects
the resource name's entry from a container's limits map. -/
def podResourceLimit (sel : PodCon → Option ℚ) (p : Pod) : ℚ × Bool :=
  p.containers.foldl
    (fun acc c =>
      match sel c with
      | some q => (acc.1 + q, true)
      | none => acc)
    (0, false)

/-- Function `nodeResourceLimitSum`: the sum of one resource's limits over every pod
already placed on the node. -/
def nodeResourceLimitSum (sel : PodCon → Option ℚ) (pods : List Pod) : ℚ :=
  pods.foldl (fun s p => s + (podResourceLimit sel p).1) 0

/-- One accelerator unit (`gpu` struct).  The `memory` field of the Go struct
is a pointer that every unit shares with `GPUNode.memEachGPU`, so it does not
appear here. -/
structure GPU where
  index : Nat
  monopoly : Bool
  usedMemory : ℚ
  deriving DecidableEq

/-- The `gpuNode` struct.  `memEachGPU` is the single quantity that every
unit's `memory` pointer targets. -/
structure GPUNode where
  gpuCount : ℚ
  memoryTotal : ℚ
  memEachGPU : ℚ
  gpus : List GPU
  deriving DecidableEq

/-- In-place update of one list position (`gpus[index].field = ...`); positions
outside the list are unchanged (the caller checks the bound first, as the Go
runtime does before the element access). -/
def listModify (f : GPU → GPU) : Nat → List GPU → List GPU
  | _, [] => []
  | 0, u :: us => f u :: us
  | n + 1, u :: us => u :: listModify f n us

/-- The body of `constructGPUs`'s pod loop for a single pod: skip pods with
neither reserved resource, skip pods whose index annotation does not parse,
panic (`Except.error`) on an out-of-range parsed index, otherwise set the
unit's `monopoly` flag and/or add the pod's memory limit to the unit's
`usedMemory`.  The `!hasAnnotation` branch of the source is kept although it
is unreachable (a missing key yields `""`, which `Atoi` rejects). -/
def placePod (gpus : List GPU) (pod : Pod) : Except String (List GPU) :=
  let gpuExist := (podResourceLimit PodCon.gpu pod).2
  let memLimit := (podResourceLimit PodCon.mem pod).1
  let memExist := (podResourceLimit PodCon.mem pod).2
  if gpuExist = false ∧ memExist = false then .ok gpus
  else
    let valOpt := mapGet gpuIndexAnnKey pod.anns
    match atoi (valOpt.getD "") with
    | none => .ok gpus
    | some index =>
      if valOpt = none then .ok gpus
      else if index < 0 ∨ (gpus.length : Int) ≤ index then
        .error "runtime error: index out of range"
      else
        let g1 := if gpuExist then listModify (fun u => { u with monopoly := true }) index.toNat gpus else gpus
        let g2 := if memExist then listModify (fun u => { u with usedMemory := u.usedMemory + memLimit }) index.toNat g1 else g1
        .ok g2

/-- Function `constructGPUs`: allocate `cnt` fresh units (index `i`, no monopoly, zero
used memory) and replay every placed pod onto them.  A negative `cnt` models
the `make([]*gpu, cnt)` panic. -/
def constructGPUs (cnt : Int) (memEachGPU : ℚ) (pods : List Pod) : Except String (List GPU) :=
  if cnt < 0 then .error "makeslice: len out of range"
  else
    pods.foldl (fun acc pod => acc.bind (fun gpus => placePod gpus pod))
      (.ok ((List.range cnt.toNat).map (fun i => { index := i, monopoly := false, usedMemory := 0 })))

/-- Function `NewGPUNode`: read the node's allocatable quantities (a missing key yields
the zero quantity, since the Go code ignores the lookup's `ok` flag), panic on
a non-integer quantity, divide the total memory by the gpu count with `int64`
(truncating) division, and build the units.  `memEachGPU` is created once and
shared by every unit. -/
def NewGPUNode (node : NodeAlloc) (pods : List Pod) : Except String GPUNode :=
  let gpuAllocatable := node.gpuAlloc.getD 0
  match asInt64 gpuAllocatable with
  | none => .error "invalid gpu resource format"
  | some gpuCnt =>
    let memAllocatable := node.memAlloc.getD 0
    match asInt64 memAllocatable with
    | none => .error "invalid memory resource format"
    | some memCnt =>
      if gpuCnt = 0 then .error "runtime error: integer divide by zero"
      else
        let memEachGPU : ℚ := ((memCnt.tdiv gpuCnt : Int) : ℚ)
        match constructGPUs gpuCnt memEachGPU pods with
        | .error e => .error e
        | .ok gpus =>
          .ok { gpuCount := gpuAllocatable, memoryTotal := memAllocatable
                memEachGPU := memEachGPU, gpus := gpus }

/-- The capacity (`memory` pointer target) of a unit of node `n`: every unit
built by `NewGPUNode` shares the single quantity `memEachGPU`. -/
def capacityOf (n : GPUNode) (_ : GPU) : ℚ := n.memEachGPU

/-- Stable insertion used to model `sort.Slice`: `x` is placed before the
first element it is strictly less than. -/
def insertBy (lt : α → α → Bool) (x : α) : List α → List α
  | [] => [x]
  | y :: ys => if lt x y then x :: y :: ys else y :: insertBy lt x ys

/-- Model of `sort.Slice` as a stable insertion sort.  Go's sort is not
stable, but at the one call site the comparator dereferences a single shared
quantity and is therefore constantly false, for which every comparison sort
returns some permutation and the implementation keeps the scan order. -/
def sortSliceBy (lt : α → α → Bool) (l : List α) : List α :=
  l.foldl (fun acc x => insertBy lt x acc) []

/-- Method `gpuNode.MemAssumeFitIndexes`.  The Go body aliases quantities through
pointers, which this embedding reproduces exactly:

* `assumed := u.usedMemory; assumed.Add(*memLimit)` adds the request to the
  unit's own `usedMemory` in place, for every unit (monopoly ones included);
* `remain := u.memory; remain.Sub(*assumed)` subtracts from the single shared
  `memEachGPU` quantity, so each accepted unit shrinks the capacity every
  later unit is compared against;
* each collected `fit.remain` is that same shared pointer, so when
  `sort.Slice` later compares `fits[i].remain` with `fits[j].remain` both
  sides dereference the one final value and the comparator is always false.

The function returns the produced index list together with the node state
after the call (the mutated `memEachGPU` and `usedMemory` values). -/
def MemAssumeFitIndexes (n : GPUNode) (memLimit : ℚ) : List Nat × GPUNode :=
  let scan :=
    n.gpus.foldl
      (fun (st : ℚ × List GPU × List Nat) u =>
        let assumed := u.usedMemory + memLimit
        if u.monopoly = false ∧ assumed ≤ st.1 then
          (st.1 - assumed, st.2.1 ++ [{ u with usedMemory := assumed }], st.2.2 ++ [u.index])
        else
          (st.1, st.2.1 ++ [{ u with usedMemory := assumed }], st.2.2))
      (n.memEachGPU, [], [])
  let fits := scan.2.2.map (fun i => (i, scan.1))
  let sorted := sortSliceBy (fun a b => decide (a.2 < b.2)) fits
  (sorted.map (fun f => f.1), { n with memEachGPU := scan.1, gpus := scan.2.1 })

/-- Method `gpuNode.GPUAssumeFitIndexes`: collect, in scan order, the index of every
unit that is not monopolised and has zero used memory.  The `gpuLimit`
argument is never read.  No state is touched. -/
def GPUAssumeFitIndexes (n : GPUNode) (gpuLimit : ℚ) : List Nat :=
  n.gpus.foldl
    (fun fits u =>
      if u.monopoly = false ∧ u.usedMemory = 0 then fits ++ [u.index] else fits)
    []

/-- Scheduler framework status results, as the plugin produces them.
`success` models the `nil` status, `error` the framework's recoverable
`Error` status (which `NewGPUNode` never produces — it panics instead). -/
inductive GoStatus where
  | success : GoStatus
  | unschedulable : String → GoStatus
  | unschedulableAndUnresolvable : String → GoStatus
  | error : String → GoStatus
  deriving DecidableEq

/-- Method `FlexGPU.Filter` (the plugin file's final version): classify the pod,
veto on conflicting or unknown resources, veto when the aggregate assumed
limit exceeds the allocatable total, build the node model and, for a
shared-memory pod, veto when the fit list is empty. -/
def FlexGPU.Filter (node : NodeAlloc) (pods : List Pod) (p : Pod) : Except String GoStatus :=
  let gpuLimit := (podResourceLimit PodCon.gpu p).1
  let gpuLimitExist := (podResourceLimit PodCon.gpu p).2
  let memLimit := (podResourceLimit PodCon.mem p).1
  let memLimitExist := (podResourceLimit PodCon.mem p).2
  if gpuLimitExist = false ∧ memLimitExist = false then .ok .success
  else if gpuLimitExist = true ∧ memLimitExist = true then
    .ok (.unschedulableAndUnresolvable "pod conflict resources")
  else
    match node.gpuAlloc with
    | none => .ok (.unschedulableAndUnresolvable "unknown resource type")
    | some gpuAllocatable =>
      match node.memAlloc with
      | none => .ok (.unschedulableAndUnresolvable "unknown resource type")
      | some memAllocatable =>
        let gpuAssumeLimitSum := nodeResourceLimitSum PodCon.gpu pods + gpuLimit
        let memAssumeLimitSum := nodeResourceLimitSum PodCon.mem pods + memLimit
        if gpuAllocatable < gpuAssumeLimitSum then
          .ok (.unschedulable ("insufficient resource " ++ GPUResourceName))
        else if memAllocatable < memAssumeLimitSum then
          .ok (.unschedulable ("insufficient resource " ++ MemResourceName))
        else
          match NewGPUNode node pods with
          | .error e => .error e
          | .ok no =>
            if memLimitExist then
              match (MemAssumeFitIndexes no memLimit).1 with
              | [] => .ok (.unschedulable ("no fit indexes resource " ++ MemResourceName))
              | _ :: _ => .ok .success
            else .ok .success

/-- Method `FlexGPU.Reserve`: classify the pod; pass through when it declares
neither reserved resource, reject when it declares both; rebuild the node
model (which may panic); run the matching fit finder; reject when it is
empty, otherwise write the first candidate's index into the pod's index
annotation with `strconv.Itoa`.  The snapshot lookup of the node is the
host's job and is modelled by the `node`/`pods` arguments.  Returns the
status together with the (possibly annotated) pod. -/
def FlexGPU.Reserve (node : NodeAlloc) (pods : List Pod) (p : Pod) :
    Except String (GoStatus × Pod) :=
  let gpuLimit := (podResourceLimit PodCon.gpu p).1
  let gpuLimitExist := (podResourceLimit PodCon.gpu p).2
  let memLimit := (podResourceLimit PodCon.mem p).1
  let memLimitExist := (podResourceLimit PodCon.mem p).2
  if gpuLimitExist = false ∧ memLimitExist = false then .ok (.success, p)
  else if gpuLimitExist = true ∧ memLimitExist = true then
    .ok (.unschedulableAndUnresolvable "pod conflict resources", p)
  else
    match NewGPUNode node pods with
    | .error e => .error e
    | .ok no =>
      if gpuLimitExist then
        match GPUAssumeFitIndexes no gpuLimit with
        | [] => .ok (.unschedulable ("allocate index fail " ++ GPUResourceName), p)
        | i :: _ =>
          .ok (.success, { p with anns := mapSet gpuIndexAnnKey (Nat.repr i) p.anns })
      else
        match (MemAssumeFitIndexes no memLimit).1 with
        | [] => .ok (.unschedulable ("allocate index fail " ++ MemResourceName), p)
        | i :: _ =>
          .ok (.success, { p with anns := mapSet gpuIndexAnnKey (Nat.repr i) p.anns })

/-- Method `FlexGPU.Unreserve`: unconditionally delete the pod's index annotation. -/
def FlexGPU.Unreserve (p : Pod) : Pod :=
  { p with anns := mapDel gpuIndexAnnKey p.anns }

/-- The candidate list the specification describes for the shared-memory fit
(spec §4.3), written from the spec's words for comparison with
`MemAssumeFitIndexes`: every non-locked unit with
`usedBytes + requested ≤ capacityBytes`, ordered ascending by the remaining
headroom `capacityBytes - (usedBytes + requested)`, ties broken by ascending
unit index. -/
def memFitIndexesSpec (n : GPUNode) (memLimit : ℚ) : List Nat :=
  let cands := n.gpus.filter
    (fun u => decide (u.monopoly = false ∧ u.usedMemory + memLimit ≤ capacityOf n u))
  let headroom := fun (u : GPU) => capacityOf n u - (u.usedMemory + memLimit)
  (sortSliceBy
      (fun a b => decide (headroom a < headroom b ∨ (headroom a = headroom b ∧ a.index < b.index)))
      cands).map (fun u => u.index)

/-- A node reporting 2 allocatable gpus and 16 allocatable memory. -/
def nodeTwoGPUs : NodeAlloc := ⟨some 2, some 16⟩

/-- A node reporting 1 allocatable gpu and 8 allocatable memory. -/
def nodeOneGPU : NodeAlloc := ⟨some 1, some 8⟩

/-- The model `NewGPUNode` builds for `nodeTwoGPUs` with no placed pods. -/
def idleTwoGPUNode : GPUNode := ⟨2, 16, 8, [⟨0, false, 0⟩, ⟨1, false, 0⟩]⟩

/-- The model `NewGPUNode` builds for `nodeOneGPU` with no placed pods. -/
def idleOneGPUNode : GPUNode := ⟨1, 8, 8, [⟨0, false, 0⟩]⟩

/-- A pod whose single container requests 5 shared memory. -/
def podSharedFive : Pod := ⟨[⟨none, some 5⟩], []⟩

/-- A placed pod with a memory limit whose index annotation `"5"` is out of
range on a 1-gpu node. -/
def podBadIndex : Pod := ⟨[⟨none, some 1⟩], [(gpuIndexAnnKey, "5")]⟩

/-- A pod whose single container requests 1 exclusive gpu. -/
def podExclOne : Pod := ⟨[⟨some 1, none⟩], []⟩

/-- C10: `GPUAssumeFitIndexes` never reads its requested-quantity argument, so
any two requests yield the same candidate list on the same model. -/
theorem gpuFit_ignores_requested_quantity (n : GPUNode) (a b : ℚ) :
    GPUAssumeFitIndexes n a = GPUAssumeFitIndexes n b := rfl

/-- C1: on a freshly built 2-unit node (8 capacity each, both idle) a shared
request of 5 should, per the claim, return both units ordered by headroom
(a tie, hence `[0, 1]`); the code returns `[0]`, because the in-place `Add`
and `Sub` through aliased quantity pointers shrink the shared capacity while
scanning, and the best-fit sort compares one shared quantity with itself. -/
theorem memFit_bestFit_order_code_bug :
    NewGPUNode nodeTwoGPUs [] = .ok idleTwoGPUNode ∧
    (MemAssumeFitIndexes idleTwoGPUNode 5).1 = [0] ∧
    memFitIndexesSpec idleTwoGPUNode 5 = [0, 1] := by
  refine ⟨by with_unfolding_all rfl, by with_unfolding_all decide, by with_unfolding_all decide⟩

/-- C2: `MemAssumeFitIndexes` is not a pure function of the model: on a fresh
1-unit node (capacity 8, used 0) a request of 5 leaves the unit's
`usedMemory` at 5 and the shared capacity at 3, so the feasibility phase
mutates state. -/
theorem memFit_mutates_state_code_bug :
    NewGPUNode nodeOneGPU [] = .ok idleOneGPUNode ∧
    (MemAssumeFitIndexes idleOneGPUNode 5).2 ≠ idleOneGPUNode ∧
    (MemAssumeFitIndexes idleOneGPUNode 5).2.memEachGPU = 3 ∧
    (MemAssumeFitIndexes idleOneGPUNode 5).2.gpus = [⟨0, false, 5⟩] := by
  refine ⟨by with_unfolding_all rfl, by with_unfolding_all decide, by with_unfolding_all decide, by with_unfolding_all decide⟩

/-- C7: when an allocatable quantity for either reserved resource name is not
an integer count (here 1/2, Go `"500m"`), `NewGPUNode` panics (modelled as
`Except.error`, a process-terminating fault); it never returns the
recoverable `GoStatus.error` result the claim requires. -/
theorem malformed_capacity_panics_code_bug :
    NewGPUNode ⟨some (1 / 2 : ℚ), some 8⟩ [] = .error "invalid gpu resource format" ∧
    NewGPUNode ⟨some 2, some (3 / 2 : ℚ)⟩ [] = .error "invalid memory resource format" := by
  refine ⟨by with_unfolding_all rfl, by with_unfolding_all rfl⟩

/-- C6: `Filter` passes with no opinion when neither reserved resource is
declared in any container's limits, and rejects as
`UnschedulableAndUnresolvable` (conflicting request) when both are declared,
whatever the node's state. -/
theorem filter_classifier_gate (node : NodeAlloc) (pods : List Pod) (p : Pod) :
    ((podResourceLimit PodCon.gpu p).2 = false → (podResourceLimit PodCon.mem p).2 = false →
      FlexGPU.Filter node pods p = .ok .success) ∧
    ((podResourceLimit PodCon.gpu p).2 = true → (podResourceLimit PodCon.mem p).2 = true →
      FlexGPU.Filter node pods p = .ok (.unschedulableAndUnresolvable "pod conflict resources")) := by
  constructor
  · intro hg hm
    simp [FlexGPU.Filter, hg, hm]
  · intro hg hm
    simp [FlexGPU.Filter, hg, hm]

theorem filter_classifier_gate_witness :
    FlexGPU.Filter nodeTwoGPUs [] ⟨[], []⟩ = .ok .success ∧
    FlexGPU.Filter nodeTwoGPUs [] ⟨[⟨some 1, some 2⟩], []⟩ =
      .ok (.unschedulableAndUnresolvable "pod conflict resources") :=
  ⟨(filter_classifier_gate nodeTwoGPUs [] ⟨[], []⟩).1 rfl rfl,
   (filter_classifier_gate nodeTwoGPUs [] ⟨[⟨some 1, some 2⟩], []⟩).2 rfl rfl⟩

theorem mapGet_eq_none_iff (k : String) (m : List (String × String)) :
    mapGet k m = none ↔ ∀ kv ∈ m, kv.1 ≠ k := by
  simp [mapGet, List.find?_eq_none]

theorem mapDel_of_get_none (k : String) (m : List (String × String))
    (h : mapGet k m = none) : mapDel k m = m := by
  rw [mapGet_eq_none_iff] at h
  unfold mapDel
  rw [List.filter_eq_self]
  intro kv hkv
  simpa using h kv hkv

theorem mapDel_set_of_get_none (k v : String) (m : List (String × String))
    (h : mapGet k m = none) : mapDel k (mapSet k v m) = m := by
  have hfind : (m.find? (fun kv => kv.1 == k)) = none := by
    simpa [mapGet] using h
  unfold mapSet
  rw [hfind]
  simp only [Option.isSome_none, Bool.false_eq_true, if_false]
  unfold mapDel
  rw [List.filter_append]
  have h1 : List.filter (fun kv => kv.1 != k) [(k, v)] = [] := by simp
  rw [h1, List.append_nil]
  exact mapDel_of_get_none k m h

theorem unreserve_eq_self (p : Pod) (h : mapGet gpuIndexAnnKey p.anns = none) :
    FlexGPU.Unreserve p = p := by
  unfold FlexGPU.Unreserve
  rw [mapDel_of_get_none _ _ h]

theorem unreserve_set_eq_self (p : Pod) (v : String)
    (h : mapGet gpuIndexAnnKey p.anns = none) :
    FlexGPU.Unreserve { p with anns := mapSet gpuIndexAnnKey v p.anns } = p := by
  unfold FlexGPU.Unreserve
  simp only
  rw [mapDel_set_of_get_none _ _ _ h]

/-- C3: for a workload with no pre-existing index annotation, `Reserve`
followed immediately by `Unreserve` restores the workload exactly, and
rebuilding the machine model from the placed workloads (even with the rolled
back workload included) yields a model identical to the one rebuilt before
the reservation. -/
theorem reserve_unreserve_rollback (node : NodeAlloc) (pods : List Pod) (p : Pod)
    (st : GoStatus) (p1 : Pod)
    (hann : mapGet gpuIndexAnnKey p.anns = none)
    (hres : FlexGPU.Reserve node pods p = .ok (st, p1)) :
    FlexGPU.Unreserve p1 = p ∧
    NewGPUNode node (pods ++ [FlexGPU.Unreserve p1]) = NewGPUNode node (pods ++ [p]) := by
  have h1 : FlexGPU.Unreserve p1 = p := by
    simp only [FlexGPU.Reserve] at hres
    repeat' split at hres
    all_goals first
      | (simp only [Except.ok.injEq, Prod.mk.injEq] at hres
         obtain ⟨-, hp⟩ := hres
         subst hp
         first
           | exact unreserve_eq_self p hann
           | exact unreserve_set_eq_self p _ hann)
      | simp at hres
  exact ⟨h1, by rw [h1]⟩

theorem reserve_unreserve_rollback_witness :
    FlexGPU.Unreserve ⟨[⟨none, some 5⟩], [(gpuIndexAnnKey, "0")]⟩ = podSharedFive ∧
    NewGPUNode nodeOneGPU
        ([] ++ [FlexGPU.Unreserve ⟨[⟨none, some 5⟩], [(gpuIndexAnnKey, "0")]⟩]) =
      NewGPUNode nodeOneGPU ([] ++ [podSharedFive]) :=
  reserve_unreserve_rollback nodeOneGPU [] podSharedFive .success
    ⟨[⟨none, some 5⟩], [(gpuIndexAnnKey, "0")]⟩ (by decide) (by with_unfolding_all rfl)

theorem gpuFit_foldl_eq (l : List GPU) (acc : List Nat) :
    l.foldl
      (fun fits u =>
        if u.monopoly = false ∧ u.usedMemory = 0 then fits ++ [u.index] else fits)
      acc
    = acc ++ (l.filter (fun u => decide (u.monopoly = false ∧ u.usedMemory = 0))).map
        (fun u => u.index) := by
  induction l generalizing acc with
  | nil => simp
  | cons u us ih =>
    by_cases h : u.monopoly = false ∧ u.usedMemory = 0
    · simp [List.foldl_cons, List.filter_cons, h, ih]
    · simp [List.foldl_cons, List.filter_cons, h, ih]

theorem gpuFit_eq_filter_map (n : GPUNode) (q : ℚ) :
    GPUAssumeFitIndexes n q
    = (n.gpus.filter (fun u => decide (u.monopoly = false ∧ u.usedMemory = 0))).map
        (fun u => u.index) := by
  unfold GPUAssumeFitIndexes
  simpa using gpuFit_foldl_eq n.gpus []

theorem listModify_length (f : GPU → GPU) (i : Nat) (l : List GPU) :
    (listModify f i l).length = l.length := by
  induction l generalizing i with
  | nil => cases i <;> rfl
  | cons u us ih =>
    cases i with
    | zero => rfl
    | succ j => simp [listModify, ih]

theorem listModify_map_index (f : GPU → GPU) (hf : ∀ u, (f u).index = u.index)
    (i : Nat) (l : List GPU) :
    (listModify f i l).map (fun u => u.index) = l.map (fun u => u.index) := by
  induction l generalizing i with
  | nil => cases i <;> rfl
  | cons u us ih =>
    cases i with
    | zero => simp [listModify, hf]
    | succ j => simp [listModify, ih]

theorem placePod_ok_inv (gpus : List GPU) (pod : Pod) (g2 : List GPU)
    (h : placePod gpus pod = .ok g2) :
    g2.length = gpus.length ∧
    g2.map (fun u => u.index) = gpus.map (fun u => u.index) := by
  simp only [placePod] at h
  repeat' split at h
  all_goals try simp only [Except.ok.injEq] at h
  all_goals first
    | (subst h
       have e1 := listModify_map_index
         (fun u => { u with monopoly := true }) (fun _ => rfl)
       have e2 := listModify_map_index
         (fun u => { u with usedMemory := u.usedMemory + (podResourceLimit PodCon.mem pod).1 })
         (fun _ => rfl)
       exact ⟨by simp [listModify_length], by simp [e1, e2]⟩)
    | simp at h

theorem foldl_placePod_error (pods : List Pod) (e : String) :
    pods.foldl (fun (acc : Except String (List GPU)) pod => acc.bind (fun gpus => placePod gpus pod))
      (.error e) = .error e := by
  induction pods with
  | nil => rfl
  | cons pod rest ih => simpa [Except.bind] using ih

theorem foldl_placePod_ok_inv (pods : List Pod) (init gs : List GPU)
    (h : pods.foldl (fun (acc : Except String (List GPU)) pod => acc.bind (fun gpus => placePod gpus pod))
      (.ok init) = .ok gs) :
    gs.length = init.length ∧
    gs.map (fun u => u.index) = init.map (fun u => u.index) := by
  induction pods generalizing init with
  | nil =>
    simp only [List.foldl_nil, Except.ok.injEq] at h
    subst h
    exact ⟨rfl, rfl⟩
  | cons pod rest ih =>
    simp only [List.foldl_cons] at h
    cases hp : placePod init pod with
    | error e =>
      rw [show ((Except.ok init).bind fun gpus => placePod gpus pod) = placePod init pod
            from rfl, hp, foldl_placePod_error] at h
      exact absurd h (by simp)
    | ok g1 =>
      rw [show ((Except.ok init).bind fun gpus => placePod gpus pod) = placePod init pod
            from rfl, hp] at h
      obtain ⟨hl, hm⟩ := ih g1 h
      obtain ⟨hl', hm'⟩ := placePod_ok_inv init pod g1 hp
      exact ⟨hl.trans hl', hm.trans hm'⟩

theorem constructGPUs_ok_inv (cnt : Int) (me : ℚ) (pods : List Pod) (gs : List GPU)
    (h : constructGPUs cnt me pods = .ok gs) :
    gs.length = cnt.toNat ∧ gs.map (fun u => u.index) = List.range cnt.toNat := by
  unfold constructGPUs at h
  split at h
  · exact absurd h (by simp)
  · obtain ⟨hl, hm⟩ := foldl_placePod_ok_inv _ _ _ h
    refine ⟨by simpa using hl, ?_⟩
    rw [hm, List.map_map]
    simp [Function.comp_def]

theorem NewGPUNode_ok_inv (node : NodeAlloc) (pods : List Pod) (n : GPUNode)
    (h : NewGPUNode node pods = .ok n) :
    ∃ g m : Int,
      asInt64 (node.gpuAlloc.getD 0) = some g ∧
      asInt64 (node.memAlloc.getD 0) = some m ∧
      g ≠ 0 ∧
      n.memEachGPU = ((m.tdiv g : Int) : ℚ) ∧
      n.gpus.length = g.toNat ∧
      n.gpus.map (fun u => u.index) = List.range g.toNat := by
  simp only [NewGPUNode] at h
  split at h
  · exact absurd h (by simp)
  case h_2 g hg =>
    split at h
    · exact absurd h (by simp)
    case h_2 m hm =>
      split at h
      · exact absurd h (by simp)
      case isFalse hg0 =>
        split at h
        · exact absurd h (by simp)
        case h_2 gpus hc =>
          simp only [Except.ok.injEq] at h
          subst h
          obtain ⟨hl, hmap⟩ := constructGPUs_ok_inv _ _ _ _ hc
          exact ⟨g, m, hg, hm, hg0, rfl, by simpa using hl, by simpa [hl] using hmap⟩

/-- C4: on any model built by `NewGPUNode`, the exclusive fit returns exactly
the indexes of the units with `monopoly = false` and zero used memory, in
strictly ascending index order, and returns the empty list (not an error)
when no unit qualifies — independently of the requested quantity. -/
theorem gpu_fit_exact_candidates (node : NodeAlloc) (pods : List Pod) (q : ℚ) (n : GPUNode)
    (hok : NewGPUNode node pods = .ok n) :
    (∀ i : Nat, i ∈ GPUAssumeFitIndexes n q ↔
        ∃ u ∈ n.gpus, u.monopoly = false ∧ u.usedMemory = 0 ∧ u.index = i) ∧
    List.Pairwise (fun a b => a < b) (GPUAssumeFitIndexes n q) ∧
    ((∀ u ∈ n.gpus, ¬(u.monopoly = false ∧ u.usedMemory = 0)) →
      GPUAssumeFitIndexes n q = []) := by
  obtain ⟨g, m, -, -, -, -, hlen, hmap⟩ := NewGPUNode_ok_inv node pods n hok
  refine ⟨?_, ?_, ?_⟩
  · intro i
    rw [gpuFit_eq_filter_map]
    simp only [List.mem_map, List.mem_filter, decide_eq_true_eq]
    constructor
    · rintro ⟨u, ⟨hu, hprop⟩, hidx⟩
      exact ⟨u, hu, hprop.1, hprop.2, hidx⟩
    · rintro ⟨u, hu, h1, h2, h3⟩
      exact ⟨u, ⟨hu, h1, h2⟩, h3⟩
  · rw [gpuFit_eq_filter_map]
    have hsub : ((n.gpus.filter
          (fun u => decide (u.monopoly = false ∧ u.usedMemory = 0))).map
            (fun u => u.index)).Sublist (n.gpus.map (fun u => u.index)) :=
      List.Sublist.map _ (List.filter_sublist n.gpus)
    rw [hmap] at hsub
    exact List.Pairwise.sublist hsub (List.pairwise_lt_range _)
  · intro hnone
    rw [gpuFit_eq_filter_map]
    have : n.gpus.filter (fun u => decide (u.monopoly = false ∧ u.usedMemory = 0)) = [] := by
      rw [List.filter_eq_nil_iff]
      intro u hu
      simpa using hnone u hu
    rw [this]
    rfl

theorem gpu_fit_exact_candidates_witness :
    List.Pairwise (fun a b => a < b) (GPUAssumeFitIndexes idleTwoGPUNode 1) :=
  (gpu_fit_exact_candidates nodeTwoGPUs [] 1 idleTwoGPUNode (by with_unfolding_all rfl)).2.1

/-- C5: when the workload declares exactly one resource kind and the model
rebuild succeeds, `Reserve` runs the matching fit finder; with an empty
candidate list it returns `Unschedulable` and leaves the pod untouched, and
otherwise it returns success with the first candidate's index written into
the pod's index annotation as the base-10 rendering (`strconv.Itoa`,
modelled by `Nat.repr`) of a non-negative integer. -/
theorem reserve_records_first_candidate (node : NodeAlloc) (pods : List Pod) (p : Pod)
    (n : GPUNode) (hok : NewGPUNode node pods = .ok n) :
    ((podResourceLimit PodCon.gpu p).2 = true → (podResourceLimit PodCon.mem p).2 = false →
      (GPUAssumeFitIndexes n (podResourceLimit PodCon.gpu p).1 = [] →
        FlexGPU.Reserve node pods p =
          .ok (.unschedulable ("allocate index fail " ++ GPUResourceName), p)) ∧
      (∀ i rest, GPUAssumeFitIndexes n (podResourceLimit PodCon.gpu p).1 = i :: rest →
        FlexGPU.Reserve node pods p =
          .ok (.success, { p with anns := mapSet gpuIndexAnnKey (Nat.repr i) p.anns }))) ∧
    ((podResourceLimit PodCon.gpu p).2 = false → (podResourceLimit PodCon.mem p).2 = true →
      ((MemAssumeFitIndexes n (podResourceLimit PodCon.mem p).1).1 = [] →
        FlexGPU.Reserve node pods p =
          .ok (.unschedulable ("allocate index fail " ++ MemResourceName), p)) ∧
      (∀ i rest, (MemAssumeFitIndexes n (podResourceLimit PodCon.mem p).1).1 = i :: rest →
        FlexGPU.Reserve node pods p =
          .ok (.success, { p with anns := mapSet gpuIndexAnnKey (Nat.repr i) p.anns }))) := by
  constructor
  · intro hg hm
    constructor
    · intro hfit
      simp [FlexGPU.Reserve, hg, hm, hok, hfit]
    · intro i rest hfit
      simp [FlexGPU.Reserve, hg, hm, hok, hfit, Nat.repr]
  · intro hg hm
    constructor
    · intro hfit
      simp [FlexGPU.Reserve, hg, hm, hok, hfit]
    · intro i rest hfit
      simp [FlexGPU.Reserve, hg, hm, hok, hfit, Nat.repr]

theorem reserve_records_first_candidate_witness :
    FlexGPU.Reserve nodeOneGPU [] podExclOne =
      .ok (.success,
        { podExclOne with anns := mapSet gpuIndexAnnKey (Nat.repr 0) podExclOne.anns }) :=
  ((reserve_records_first_candidate nodeOneGPU [] podExclOne idleOneGPUNode
      (by with_unfolding_all rfl)).1 rfl rfl).2 0 [] (by with_unfolding_all rfl)

/-- C8: with a positive gpu count `g` and non-negative total memory `m`,
every unit of the freshly built model has capacity `m.tdiv g` (Go's
truncating `int64` division), the sum of the units' capacities is at most
`m`, and the shortfall is exactly the division remainder `m.tmod g`. -/
theorem unit_capacity_integer_division (node : NodeAlloc) (pods : List Pod)
    (g m : Int) (n : GPUNode)
    (hga : asInt64 (node.gpuAlloc.getD 0) = some g)
    (hma : asInt64 (node.memAlloc.getD 0) = some m)
    (hg : 0 < g) (hm : 0 ≤ m)
    (hok : NewGPUNode node pods = .ok n) :
    (∀ u ∈ n.gpus, capacityOf n u = ((m.tdiv g : Int) : ℚ)) ∧
    (n.gpus.map (capacityOf n)).sum ≤ ((m : Int) : ℚ) ∧
    ((m : Int) : ℚ) - (n.gpus.map (capacityOf n)).sum = ((m.tmod g : Int) : ℚ) := by
  obtain ⟨g', m', hga', hma', hg0, hmem, hlen, -⟩ := NewGPUNode_ok_inv node pods n hok
  have hgg : g' = g := by rw [hga] at hga'; exact (Option.some.inj hga').symm
  have hmm : m' = m := by rw [hma] at hma'; exact (Option.some.inj hma').symm
  rw [hgg, hmm] at hmem
  rw [hgg] at hlen
  have hsum : (n.gpus.map (capacityOf n)).sum = (g.toNat : ℚ) * ((m.tdiv g : Int) : ℚ) := by
    have hmap : ∀ l : List GPU, l.map (capacityOf n) = List.replicate l.length n.memEachGPU := by
      intro l
      induction l with
      | nil => rfl
      | cons u us ih => simp [capacityOf, ih, List.replicate_succ]
    rw [hmap n.gpus, List.sum_replicate, hlen, hmem, nsmul_eq_mul]
  have hcast : ((g.toNat : ℕ) : ℚ) = ((g : Int) : ℚ) := by
    rw [← Int.cast_natCast, Int.toNat_of_nonneg hg.le]
  have key : g * m.tdiv g + m.tmod g = m := Int.tdiv_add_tmod m g
  have hmod : 0 ≤ m.tmod g := Int.tmod_nonneg g hm
  refine ⟨?_, ?_, ?_⟩
  · intro u hu
    rw [capacityOf, hmem]
  · rw [hsum, hcast]
    have hint : g * m.tdiv g ≤ m := by linarith
    calc ((g : Int) : ℚ) * ((m.tdiv g : Int) : ℚ)
        = ((g * m.tdiv g : Int) : ℚ) := by push_cast; ring
      _ ≤ ((m : Int) : ℚ) := by exact_mod_cast hint
  · rw [hsum, hcast]
    have := congrArg (fun z : Int => (z : ℚ)) key
    push_cast at this
    linarith

theorem unit_capacity_integer_division_witness :
    (idleTwoGPUNode.gpus.map (capacityOf idleTwoGPUNode)).sum ≤ ((16 : Int) : ℚ) ∧
    ((16 : Int) : ℚ) - (idleTwoGPUNode.gpus.map (capacityOf idleTwoGPUNode)).sum =
      (((16 : Int).tmod 2 : Int) : ℚ) :=
  (unit_capacity_integer_division nodeTwoGPUs [] 2 16 idleTwoGPUNode
    (by with_unfolding_all rfl) (by with_unfolding_all rfl)
    (by decide) (by decide) (by with_unfolding_all rfl)).2

theorem placePod_ok_of_bound (gpus : List GPU) (pod : Pod)
    (hcond : ((podResourceLimit PodCon.gpu pod).2 = true ∨
        (podResourceLimit PodCon.mem pod).2 = true) →
      ∀ i : Int, atoi ((mapGet gpuIndexAnnKey pod.anns).getD "") = some i →
        0 ≤ i ∧ i < (gpus.length : Int)) :
    ∃ g2, placePod gpus pod = .ok g2 := by
  simp only [placePod]
  split
  · exact ⟨gpus, rfl⟩
  case isFalse hne =>
    split
    · exact ⟨gpus, rfl⟩
    case h_2 idx hidx =>
      split
      · exact ⟨gpus, rfl⟩
      · split
        case isTrue hbad =>
          have hex : (podResourceLimit PodCon.gpu pod).2 = true ∨
              (podResourceLimit PodCon.mem pod).2 = true := by
            by_cases h1 : (podResourceLimit PodCon.gpu pod).2 = true
            · exact .inl h1
            · by_cases h2 : (podResourceLimit PodCon.mem pod).2 = true
              · exact .inr h2
              · simp only [Bool.not_eq_true] at h1 h2
                exact absurd ⟨h1, h2⟩ hne
          obtain ⟨h0, hlt⟩ := hcond hex idx hidx
          rcases hbad with h | h <;> omega
        case isFalse => exact ⟨_, rfl⟩

theorem foldl_placePod_total (pods : List Pod) (g : Int) :
    ∀ init : List GPU, (init.length : Int) = g →
    (∀ pod ∈ pods,
      ((podResourceLimit PodCon.gpu pod).2 = true ∨
        (podResourceLimit PodCon.mem pod).2 = true) →
      ∀ i : Int, atoi ((mapGet gpuIndexAnnKey pod.anns).getD "") = some i →
        0 ≤ i ∧ i < g) →
    ∃ gs, pods.foldl
        (fun (acc : Except String (List GPU)) pod => acc.bind (fun gpus => placePod gpus pod))
        (.ok init) = .ok gs := by
  induction pods with
  | nil => exact fun init _ _ => ⟨init, rfl⟩
  | cons pod rest ih =>
    intro init hlen hcond
    obtain ⟨g1, hg1⟩ := placePod_ok_of_bound init pod (by
      intro hex i hi
      have h := hcond pod (List.mem_cons_self pod rest) hex i hi
      rwa [hlen])
    simp only [List.foldl_cons]
    rw [show ((Except.ok init).bind fun gpus => placePod gpus pod) = placePod init pod
          from rfl, hg1]
    refine ih g1 ?_ ?_
    · have h1 := (placePod_ok_inv init pod g1 hg1).1
      rw [← hlen, h1]
    · intro pod' hmem hex i hi
      exact hcond pod' (List.mem_cons_of_mem _ hmem) hex i hi

/-- C9: model construction completes without reaching a panic whenever the
allocatable quantities parse, the gpu count is strictly positive, and every
placed workload that declares a reserved resource has its parsed index
annotation inside `[0, gpuCount)`; dropping either precondition panics, as
the zero-count (division by zero) and out-of-range-index inputs show. -/
theorem construction_total_under_preconditions :
    (∀ (node : NodeAlloc) (pods : List Pod) (g m : Int),
        asInt64 (node.gpuAlloc.getD 0) = some g →
        asInt64 (node.memAlloc.getD 0) = some m →
        0 < g →
        (∀ pod ∈ pods,
          ((podResourceLimit PodCon.gpu pod).2 = true ∨
            (podResourceLimit PodCon.mem pod).2 = true) →
          ∀ i : Int, atoi ((mapGet gpuIndexAnnKey pod.anns).getD "") = some i →
            0 ≤ i ∧ i < g) →
        ∃ n, NewGPUNode node pods = .ok n) ∧
    NewGPUNode ⟨some 0, some 8⟩ [] = .error "runtime error: integer divide by zero" ∧
    NewGPUNode nodeOneGPU [podBadIndex] = .error "runtime error: index out of range" := by
  refine ⟨?_, by with_unfolding_all rfl, by with_unfolding_all rfl⟩
  intro node pods g m hga hma hg hcond
  simp only [NewGPUNode, hga, hma]
  rw [if_neg (by omega : ¬ g = 0)]
  have hex : ∃ gs, constructGPUs g ((m.tdiv g : Int) : ℚ) pods = .ok gs := by
    unfold constructGPUs
    rw [if_neg (by omega : ¬ g < 0)]
    exact foldl_placePod_total pods g _ (by simp [Int.toNat_of_nonneg hg.le]) hcond
  obtain ⟨gs, hgs⟩ := hex
  rw [hgs]
  exact ⟨_, rfl⟩

theorem construction_total_under_preconditions_witness :
    ∃ n, NewGPUNode nodeTwoGPUs [] = .ok n :=
  construction_total_under_preconditions.1 nodeTwoGPUs [] 2 16
    (by with_unfolding_all rfl) (by with_unfolding_all rfl) (by decide)
    (by intro pod hmem; exact absurd hmem (List.not_mem_nil pod))
